import Mathlib

/-!
Verification of the Matching / Reconciliation / Anomaly-Detection /
Human-Review-Gating engine of the Project-Gamma logistics backend.

Shallow embedding conventions:
* Python `float` values are modelled as exact rationals (`ℚ`); the numeric
  computations exercised by the claims (tolerance ratios, weighted sums,
  threshold comparisons at decimal constants) are exact in this model.
* Python `round(x, n)` is modelled by `roundTo n` (round half up at the
  n-th decimal); none of the values reached in the theorems below sit on a
  rounding tie, so the tie-breaking convention is immaterial.
* Python `None` becomes `Option.none`; a fallible operation returns
  `Except`/`Option`.
* Python dict payloads become structures holding exactly the keys the code
  reads.
-/

namespace Gamma

/-- `roundTo n x` : round `x` to `n` decimal places (models Python
`round(x, n)`; see the file header for the tie convention). -/
def roundTo (n : ℕ) (x : ℚ) : ℚ :=
  (round (x * 10 ^ n) : ℤ) / 10 ^ n

/-! ## Scalar matchers (`backend/app/matching_engine/matchers.py`) -/

/-- Embedding of `match_numeric(value_a, value_b, tolerance_pct,
tolerance_abs)`.  Mirrors the source line by line: the `None` check comes
first, then both-zero, then exactly-one-zero, then the tolerance test
(`within_abs` is `False` when `tolerance_abs <= 0`), then the confidence
(`1.0` at zero difference, otherwise `round(1 - min(diff_pct/tolerance_pct,
1)*0.2, 3)` with ratio `0.0` when `tolerance_pct <= 0`). -/
def match_numeric (value_a value_b : Option ℚ)
    (tolerance_pct tolerance_abs : ℚ) : Bool × ℚ :=
  match value_a, value_b with
  | none, _ => (false, 0)
  | _, none => (false, 0)
  | some a, some b =>
    if a = 0 ∧ b = 0 then (true, 1)
    else if a = 0 ∨ b = 0 then (false, 0)
    else
      let diff := |a - b|
      let maxVal := max |a| |b|
      let diffPct := diff / maxVal
      let withinPct : Bool := diffPct ≤ tolerance_pct
      let withinAbs : Bool := if 0 < tolerance_abs then diff ≤ tolerance_abs else false
      if withinPct || withinAbs then
        if diff = 0 then (true, 1)
        else
          let ratio := if 0 < tolerance_pct then min (diffPct / tolerance_pct) 1 else 0
          (true, roundTo 3 (1 - ratio * (1 / 5)))
      else (false, 0)

/-- `roundTo` is monotone. -/
theorem roundTo_mono (n : ℕ) {x y : ℚ} (h : x ≤ y) : roundTo n x ≤ roundTo n y := by
  unfold roundTo
  have hpow : (0 : ℚ) < 10 ^ n := by positivity
  have hr : round (x * 10 ^ n) ≤ round (y * 10 ^ n) := by
    rw [round_eq, round_eq]
    exact Int.floor_le_floor (by nlinarith)
  exact div_le_div_of_nonneg_right (by exact_mod_cast hr) hpow.le

/-- Python `str.lower()`, character by character (the identifiers the
claims exercise are ASCII, where `Char.toLower` agrees with Python). -/
def strLower (s : String) : String := String.mk (s.data.map Char.toLower)

/-! ## Anomaly detectors (`backend/app/anomaly_flagger/detectors.py`) -/

/-- One entry of the `existing_invoices` list consumed by
`detect_duplicate`: a dict with keys `invoice_number`, `vendor`, `date`,
`document_id` (each possibly absent).  The `date` value is only copied into
the finding payload, never compared, so it is kept as an opaque string. -/
structure ExistingInvoice where
  invoice_number : Option String
  vendor : Option String
  date : Option String
  document_id : Option ℕ
deriving DecidableEq

/-- The payload returned by `detect_duplicate` on a hit. -/
structure DuplicateFinding where
  duplicate_of_document_id : Option ℕ
  original_date : Option String
  invoice_number : String
  vendor : String
deriving DecidableEq

/-- Embedding of `detect_duplicate(invoice_number, vendor,
existing_invoices, window_days)`.  The source iterates over
`existing_invoices` and returns the first record whose `invoice_number`
equals the probe exactly (`inv.get("invoice_number") == invoice_number`,
case-sensitive, `None` never equal to a string) and whose vendor matches
case-insensitively (`inv.get("vendor", "").lower() == vendor.lower()`).
The `window_days` parameter is accepted — and documented in the source as
"Number of days to look back" — but never read. -/
def detect_duplicate (invoice_number vendor : String)
    (existing_invoices : List ExistingInvoice) (window_days : ℤ) :
    Option DuplicateFinding :=
  (existing_invoices.find? (fun inv =>
      decide (inv.invoice_number = some invoice_number) &&
      decide (strLower (inv.vendor.getD "") = strLower vendor))).map
    (fun inv =>
      { duplicate_of_document_id := inv.document_id
        original_date := inv.date
        invoice_number := invoice_number
        vendor := vendor })

/-- The payload returned by `detect_budget_overrun` on a hit. -/
structure BudgetOverrunFinding where
  project_code : String
  budget_amount : ℚ
  spent_amount : ℚ
  new_amount : ℚ
  projected_total : ℚ
  overrun_pct : ℚ
deriving DecidableEq

/-- Embedding of `detect_budget_overrun(project_code, new_amount,
budget_amount, spent_amount, threshold)`: returns `None` when
`budget_amount <= 0`; else flags iff
`(spent + new - budget)/budget > threshold`, reporting the projected
total rounded to 2 decimals and the overrun percentage rounded to 1. -/
def detect_budget_overrun (project_code : String)
    (new_amount budget_amount spent_amount threshold : ℚ) :
    Option BudgetOverrunFinding :=
  if budget_amount ≤ 0 then none
  else
    let projected_total := spent_amount + new_amount
    let overrun_pct := (projected_total - budget_amount) / budget_amount
    if threshold < overrun_pct then
      some { project_code := project_code
             budget_amount := budget_amount
             spent_amount := spent_amount
             new_amount := new_amount
             projected_total := roundTo 2 projected_total
             overrun_pct := roundTo 1 (overrun_pct * 100) }
    else none

/-- Population mean of the historical series, as computed inline by
`detect_unusual_amount` (`sum(h)/len(h)`). -/
def histMean (l : List ℚ) : ℚ := l.sum / l.length

/-- Population variance of the historical series, as computed inline by
`detect_unusual_amount` (`sum((x-mean)**2 for x in h)/len(h)`; the source
then takes `variance ** 0.5` as the standard deviation). -/
def histVariance (l : List ℚ) : ℚ :=
  (l.map (fun x => (x - histMean l) ^ 2)).sum / l.length

/-- The payload returned by `detect_unusual_amount` on a hit.  The source
payload carries `std_dev` and `z_score`, which are square roots and hence
not rational; the embedding records the variance (`std_dev²`) instead,
which determines both. -/
structure UnusualAmountFinding where
  amount : ℚ
  mean : ℚ
  variance : ℚ
  historical_count : ℕ
deriving DecidableEq

/-- Embedding of `detect_unusual_amount(amount, historical_amounts,
std_multiplier)`: `None` when fewer than 5 history points; `None` when the
population standard deviation is zero (`std_dev == 0` iff `variance == 0`
since `variance ≥ 0`); else flags iff
`|amount - mean| / std_dev > std_multiplier`.  That comparison is encoded
without square roots: for `0 ≤ m` it is equivalent to
`(amount - mean)² > m² · variance`, and for `m < 0` it always holds since
the z-score is nonnegative. -/
def detect_unusual_amount (amount : ℚ) (historical_amounts : List ℚ)
    (std_multiplier : ℚ) : Option UnusualAmountFinding :=
  if historical_amounts.length < 5 then none
  else
    let mean := histMean historical_amounts
    let variance := histVariance historical_amounts
    if variance = 0 then none
    else if (if 0 ≤ std_multiplier
             then decide (std_multiplier ^ 2 * variance < (amount - mean) ^ 2)
             else true) then
      some { amount := amount
             mean := mean
             variance := variance
             historical_count := historical_amounts.length }
    else none

/-- C1 counterexample: with both inputs null, `match_numeric` returns
`(False, 0.0)` — the claim says both-null yields matched with confidence
1.0, but the source checks `value_a is None or value_b is None` before the
both-zero branch, so both-null is a no-match. -/
theorem C1_counterexample :
    match_numeric none none (1 / 20) 0 = (false, 0) ∧
    ¬ match_numeric none none (1 / 20) 0 = (true, 1) :=
  ⟨rfl, by decide⟩

/-- C1 (amended): for a nonnegative percentage tolerance `p`,
`match_numeric` returns no-match whenever either input is null (including
both-null); matched with confidence 1.0 when both are zero; no-match when
exactly one is zero; otherwise it matches iff
`|a-b|/max(|a|,|b|) ≤ p` or `|a-b| ≤ t`, with confidence 1.0 at exact
equality and, for `0 < p`, confidence
`round₃(1 - min(relDiff/p, 1)·0.2)` — degrading linearly from 1.0 toward
0.8 as the relative difference approaches the tolerance boundary, always
within `[0.8, 1]`. -/
theorem C1_match_numeric_amended (a b p t : ℚ) (hp : 0 ≤ p) :
    (match_numeric none none p t = (false, 0)) ∧
    (match_numeric (some a) none p t = (false, 0)) ∧
    (match_numeric none (some b) p t = (false, 0)) ∧
    (a = 0 → b = 0 → match_numeric (some a) (some b) p t = (true, 1)) ∧
    (a = 0 → b ≠ 0 → match_numeric (some a) (some b) p t = (false, 0)) ∧
    (a ≠ 0 → b = 0 → match_numeric (some a) (some b) p t = (false, 0)) ∧
    (a ≠ 0 → b ≠ 0 →
      (((match_numeric (some a) (some b) p t).1 = true) ↔
        (|a - b| / max |a| |b| ≤ p ∨ |a - b| ≤ t))) ∧
    (a ≠ 0 → a = b → match_numeric (some a) (some b) p t = (true, 1)) ∧
    (a ≠ 0 → b ≠ 0 → a ≠ b → 0 < p →
      (match_numeric (some a) (some b) p t).1 = true →
      (match_numeric (some a) (some b) p t).2 =
          roundTo 3 (1 - min ((|a - b| / max |a| |b|) / p) 1 * (1 / 5)) ∧
      4 / 5 ≤ (match_numeric (some a) (some b) p t).2 ∧
      (match_numeric (some a) (some b) p t).2 ≤ 1) := by
  refine ⟨rfl, rfl, rfl, ?_, ?_, ?_, ?_, ?_, ?_⟩
  · intro ha hb
    simp [match_numeric, ha, hb]
  · intro ha hb
    simp [match_numeric, ha, hb]
  · intro ha hb
    simp [match_numeric, ha, hb]
  · intro ha hb
    have hmax : 0 < max |a| |b| := lt_max_of_lt_left (abs_pos.mpr ha)
    simp only [match_numeric, if_neg (by tauto : ¬(a = 0 ∧ b = 0)),
      if_neg (by tauto : ¬(a = 0 ∨ b = 0))]
    by_cases hcond : (decide (|a - b| / max |a| |b| ≤ p) ||
        if 0 < t then decide (|a - b| ≤ t) else false) = true
    · rw [if_pos hcond]
      constructor
      · intro _
        rcases Bool.or_eq_true_iff.mp hcond with h | h
        · exact Or.inl (of_decide_eq_true h)
        · by_cases ht : 0 < t
          · rw [if_pos ht] at h
            exact Or.inr (of_decide_eq_true h)
          · rw [if_neg ht] at h
            exact absurd h (by decide)
      · intro _
        split <;> rfl
    · rw [if_neg hcond]
      simp only [Bool.or_eq_true_iff, decide_eq_true_eq, not_or] at hcond
      obtain ⟨h1, h2⟩ := hcond
      constructor
      · intro hfalse
        exact absurd hfalse (by decide)
      · rintro (h | h)
        · exact absurd h h1
        · by_cases ht : 0 < t
          · rw [if_pos ht] at h2
            simp only [decide_eq_true_eq] at h2
            exact absurd h h2
          · -- t ≤ 0 and |a-b| ≤ t forces |a-b| = 0, hence relDiff = 0 ≤ p
            push_neg at ht
            have hd0 : |a - b| = 0 := le_antisymm (h.trans ht) (abs_nonneg _)
            exact absurd (by rw [hd0, zero_div]; exact hp) h1
  · intro ha hab
    subst hab
    have hmax : 0 < max |a| |a| := lt_max_of_lt_left (abs_pos.mpr ha)
    simp only [match_numeric, if_neg (by tauto : ¬(a = 0 ∧ a = 0)),
      if_neg (by tauto : ¬(a = 0 ∨ a = 0)), sub_self, abs_zero, zero_div]
    simp [hp]
  · intro ha hb hab hpp hmatch
    have hmax : 0 < max |a| |b| := lt_max_of_lt_left (abs_pos.mpr ha)
    have hd : |a - b| ≠ 0 := by
      simp only [abs_ne_zero, sub_ne_zero]
      exact hab
    simp only [match_numeric, if_neg (by tauto : ¬(a = 0 ∧ b = 0)),
      if_neg (by tauto : ¬(a = 0 ∨ b = 0))] at hmatch ⊢
    by_cases hcond : (decide (|a - b| / max |a| |b| ≤ p) ||
        if 0 < t then decide (|a - b| ≤ t) else false) = true
    · rw [if_pos hcond] at hmatch ⊢
      rw [if_neg hd] at hmatch ⊢
      rw [if_pos hpp]
      refine ⟨rfl, ?_, ?_⟩
      · have h1 : roundTo 3 (4 / 5 : ℚ) = 4 / 5 := by
          norm_num [roundTo, round_eq]
        calc (4/5 : ℚ) = roundTo 3 (4/5) := h1.symm
          _ ≤ _ := roundTo_mono 3 (by
              have hr : min ((|a - b| / max |a| |b|) / p) 1 ≤ 1 := min_le_right _ _
              nlinarith)
      · have h1 : roundTo 3 (1 : ℚ) = 1 := by
          norm_num [roundTo, round_eq]
        calc roundTo 3 (1 - min ((|a - b| / max |a| |b|) / p) 1 * (1/5))
            ≤ roundTo 3 1 := roundTo_mono 3 (by
              have hr : 0 ≤ min ((|a - b| / max |a| |b|) / p) 1 := le_min
                (by positivity) (by norm_num)
              nlinarith)
          _ = 1 := h1
    · rw [if_neg hcond] at hmatch
      exact absurd hmatch (by decide)

/-- Witness for `C1_match_numeric_amended` at `a = b = 5`, `p = 1/20`,
`t = 0`. -/
theorem C1_witness :
    ((0:ℚ) ≤ 1 / 20) ∧ match_numeric (some 5) (some 5) (1 / 20) 0 = (true, 1) := by
  have h := C1_match_numeric_amended 5 5 (1 / 20) 0 (by norm_num)
  exact ⟨by norm_num, h.2.2.2.2.2.2.2.1 (by norm_num) rfl⟩

/-- The population variance of a history is nonnegative. -/
theorem histVariance_nonneg (l : List ℚ) : 0 ≤ histVariance l := by
  unfold histVariance
  apply div_nonneg _ (by positivity)
  apply List.sum_nonneg
  intro x hx
  simp only [List.mem_map] at hx
  obtain ⟨y, -, rfl⟩ := hx
  positivity

/-- C8: `detect_budget_overrun` flags iff
`(spent + new - budget)/budget > threshold`, with a strict comparison; at
exactly 10% overrun (spent 90000, new 20000, budget 100000, threshold
0.10) there is no flag, and at 15% overrun (spent 65000, new 50000) the
flag reports `overrun_pct = 15.0`. -/
theorem C8_detect_budget_overrun (pc : String) (n b s th : ℚ) (hb : 0 < b) :
    ((detect_budget_overrun pc n b s th).isSome ↔ th < (s + n - b) / b) ∧
    detect_budget_overrun "PRJ" 20000 100000 90000 (1 / 10) = none ∧
    (detect_budget_overrun "PRJ" 50000 100000 65000 (1 / 10)).map
        BudgetOverrunFinding.overrun_pct = some 15 := by
  refine ⟨?_, ?_, ?_⟩
  · by_cases h : th < (s + n - b) / b
    · simp [detect_budget_overrun, not_le.mpr hb, h]
    · simp [detect_budget_overrun, not_le.mpr hb, h]
  · norm_num [detect_budget_overrun]
  · norm_num [detect_budget_overrun, roundTo, round_eq]

/-- Witness for `C8_detect_budget_overrun` at budget 100000. -/
theorem C8_witness :
    (0 : ℚ) < 100000 ∧
    ((detect_budget_overrun "PRJ" 50000 100000 65000 (1 / 10)).isSome ↔
      (1 / 10 : ℚ) < (65000 + 50000 - 100000) / 100000) :=
  ⟨by norm_num,
   (C8_detect_budget_overrun "PRJ" 50000 100000 65000 (1 / 10) (by norm_num)).1⟩

/-- C7: `detect_unusual_amount` returns no finding on fewer than 5 history
points or when the population variance (equivalently the population
standard deviation) is zero — so the z-score division is never reached —
and otherwise flags iff `|amount - mean| / stddev > multiplier`, stated
over the reals with `stddev = √variance`. -/
theorem C7_detect_unusual_amount (amount m : ℚ) (hist : List ℚ)
    (hm : 0 ≤ m) :
    (hist.length < 5 → detect_unusual_amount amount hist m = none) ∧
    (histVariance hist = 0 → detect_unusual_amount amount hist m = none) ∧
    (5 ≤ hist.length → histVariance hist ≠ 0 →
      ((detect_unusual_amount amount hist m).isSome ↔
        (m : ℝ) < |(amount : ℝ) - (histMean hist : ℝ)| /
          Real.sqrt (histVariance hist))) := by
  refine ⟨?_, ?_, ?_⟩
  · intro h
    simp [detect_unusual_amount, h]
  · intro hv
    simp [detect_unusual_amount, hv]
  · intro h5 hvne
    have hv0 : 0 ≤ histVariance hist := histVariance_nonneg _
    have hvpos : (0 : ℝ) < (histVariance hist : ℝ) := by
      exact_mod_cast lt_of_le_of_ne hv0 (Ne.symm hvne)
    have hs : 0 < Real.sqrt (histVariance hist) := Real.sqrt_pos.mpr hvpos
    have hRQ : ((m : ℝ) < |(amount : ℝ) - (histMean hist : ℝ)| /
          Real.sqrt (histVariance hist)) ↔
        m ^ 2 * histVariance hist < (amount - histMean hist) ^ 2 := by
      rw [lt_div_iff hs]
      constructor
      · intro h
        have h2 : ((m : ℝ) * Real.sqrt (histVariance hist)) ^ 2 <
            |(amount : ℝ) - (histMean hist : ℝ)| ^ 2 :=
          pow_lt_pow_left h (by positivity) two_ne_zero
        rw [mul_pow, Real.sq_sqrt hvpos.le, sq_abs] at h2
        exact_mod_cast h2
      · intro h
        have h2 : ((m : ℝ) * Real.sqrt (histVariance hist)) ^ 2 <
            |(amount : ℝ) - (histMean hist : ℝ)| ^ 2 := by
          rw [mul_pow, Real.sq_sqrt hvpos.le, sq_abs]
          exact_mod_cast h
        exact lt_of_pow_lt_pow_left 2 (abs_nonneg _) h2
    rw [hRQ]
    by_cases hlt : m ^ 2 * histVariance hist < (amount - histMean hist) ^ 2
    · simp [detect_unusual_amount, not_lt.mpr h5, hvne, hm, hlt]
    · simp [detect_unusual_amount, not_lt.mpr h5, hvne, hm, hlt]

/-- Witness for `C7_detect_unusual_amount` on the 5-point history
`[100, 110, 105, 95, 100]` (variance 26) at amount 500, multiplier 3. -/
theorem C7_witness :
    (0 : ℚ) ≤ 3 ∧ 5 ≤ ([100, 110, 105, 95, 100] : List ℚ).length ∧
    histVariance [100, 110, 105, 95, 100] ≠ 0 ∧
    ((detect_unusual_amount 500 [100, 110, 105, 95, 100] 3).isSome ↔
      ((3 : ℚ) : ℝ) < |((500 : ℚ) : ℝ) - (histMean [100, 110, 105, 95, 100] : ℝ)| /
        Real.sqrt (histVariance [100, 110, 105, 95, 100])) := by
  refine ⟨by norm_num, by norm_num, by norm_num [histVariance, histMean], ?_⟩
  exact (C7_detect_unusual_amount 500 3 [100, 110, 105, 95, 100]
    (by norm_num)).2.2 (by norm_num) (by norm_num [histVariance, histMean])

/-- C3: evaluation of `detect_duplicate` at the failing inputs.  The code
flags a colliding record no matter how old it is (the `window_days`
argument — 90 vs 1000000 below — is never read, contrary to the claim and
to the function's own docstring), and it compares invoice numbers
case-sensitively (probe `"inv-001"` misses stored `"INV-001"`, contrary to
the claim's case-insensitive comparison), while vendors are compared
case-insensitively (`"Acme"` matches stored `"ACME"`). -/
theorem C3_code_evaluation :
    detect_duplicate "INV-001" "Acme"
        [⟨some "INV-001", some "ACME", some "2023-01-05", some 7⟩] 90 =
      some ⟨some 7, some "2023-01-05", "INV-001", "Acme"⟩ ∧
    detect_duplicate "INV-001" "Acme"
        [⟨some "INV-001", some "ACME", some "2023-01-05", some 7⟩] 1000000 =
      some ⟨some 7, some "2023-01-05", "INV-001", "Acme"⟩ ∧
    detect_duplicate "inv-001" "Acme"
        [⟨some "INV-001", some "ACME", some "2023-01-05", some 7⟩] 90 = none := by
  refine ⟨by decide, by decide, by decide⟩

/-! ## Review queue state machine (`backend/app/hitl_workflow/service.py`) -/

/-- `ReviewStatus` from `backend/app/models/review.py`. -/
inductive ReviewStatus
  | pending_review
  | approved
  | rejected
  | escalated
  | auto_approved
deriving DecidableEq

/-- The low-risk auto-approval test of `create_review_item`:
`dollar_amount is not None and confidence is not None and
dollar_amount < auto_approve_threshold and confidence >= 0.85`. -/
def lowRiskCheck (auto_approve_threshold : ℚ)
    (dollar_amount confidence : Option ℚ) : Bool :=
  match dollar_amount, confidence with
  | some d, some c => decide (d < auto_approve_threshold) && decide (85 / 100 ≤ c)
  | _, _ => false

/-- The high-risk override test of `create_review_item`:
`dollar_amount is not None and dollar_amount >= high_risk_threshold`. -/
def highRiskCheck (high_risk_threshold : ℚ) (dollar_amount : Option ℚ) : Bool :=
  match dollar_amount with
  | some d => decide (high_risk_threshold ≤ d)
  | none => false

/-- The status / eligibility / severity decision made at the top of
`HITLService.create_review_item`.  Mirrors the source order: start from
`pending_review`, switch to `auto_approved` on the low-risk test, then
force `pending_review` (and default the severity to `"high"`, Python
`severity or "high"`) whenever the high-risk test holds. -/
def create_review_item (auto_approve_threshold high_risk_threshold : ℚ)
    (dollar_amount confidence : Option ℚ) (severity : Option String) :
    ReviewStatus × Bool × Option String :=
  let st : ReviewStatus × Bool :=
    if lowRiskCheck auto_approve_threshold dollar_amount confidence then
      (ReviewStatus.auto_approved, true)
    else (ReviewStatus.pending_review, false)
  if highRiskCheck high_risk_threshold dollar_amount then
    (ReviewStatus.pending_review, false,
      if severity = none ∨ severity = some "" then some "high" else severity)
  else (st.1, st.2, severity)

/-- A persisted review item, with the fields `HITLService.review_item`
reads or writes. -/
structure ReviewItemRec where
  status : ReviewStatus
  reviewed_by : Option String
  reviewed_at : Option ℕ
  review_notes : Option String
deriving DecidableEq

/-- The two failure modes of `HITLService.review_item`; both are raised as
`ValueError` in the source, distinguished by their messages. -/
inductive ReviewError
  | notFound (item_id : ℕ)
  | invalidAction (action : String)
deriving DecidableEq

/-- Embedding of `HITLService.review_item(item_id, action, reviewed_by,
notes)` over a store of review items (an association list standing for the
`review_queue` table; `now` stands for `datetime.now()`).  Returns the
store after the call together with the outcome; the source raises before
any field assignment, so both error outcomes leave the store untouched. -/
def review_item (store : List (ℕ × ReviewItemRec)) (item_id : ℕ)
    (action : String) (reviewed_by : String) (notes : Option String)
    (now : ℕ) :
    List (ℕ × ReviewItemRec) × Except ReviewError ReviewItemRec :=
  match store.find? (fun kv => kv.1 = item_id) with
  | none => (store, Except.error (ReviewError.notFound item_id))
  | some (_, item) =>
    if action = "approve" ∨ action = "reject" ∨ action = "escalate" then
      let newStatus :=
        if action = "approve" then ReviewStatus.approved
        else if action = "reject" then ReviewStatus.rejected
        else ReviewStatus.escalated
      let item' : ReviewItemRec :=
        { status := newStatus
          reviewed_by := some reviewed_by
          reviewed_at := some now
          review_notes := notes }
      (store.map (fun kv => if kv.1 = item_id then (kv.1, item') else kv),
       Except.ok item')
    else (store, Except.error (ReviewError.invalidAction action))

/-- C2: `create_review_item` starts an item in `auto_approved` exactly when
a dollar amount and a confidence are supplied with
`amount < auto_approve_threshold`, `confidence ≥ 0.85` and
`amount < high_risk_threshold` (the high-risk override forces
`pending_review` regardless of confidence); every other item starts in
`pending_review`.  At the defaults (1000 / 10000): amount 500 with
confidence 0.95 is auto-approved, amount 15000 with confidence 0.99 is
pending review. -/
theorem C2_create_review_item (autoT highT : ℚ) (d c : Option ℚ)
    (sev : Option String) :
    ((create_review_item autoT highT d c sev).1 = ReviewStatus.auto_approved ↔
      (∃ a conf, d = some a ∧ c = some conf ∧
        a < autoT ∧ 85 / 100 ≤ conf ∧ a < highT)) ∧
    ((create_review_item autoT highT d c sev).1 = ReviewStatus.auto_approved ∨
      (create_review_item autoT highT d c sev).1 = ReviewStatus.pending_review) ∧
    (create_review_item 1000 10000 (some 500) (some (95 / 100)) none).1 =
      ReviewStatus.auto_approved ∧
    (create_review_item 1000 10000 (some 15000) (some (99 / 100)) none).1 =
      ReviewStatus.pending_review := by
  refine ⟨?_, ?_, ?_, ?_⟩
  · constructor
    · intro h
      match hd : d, hc : c with
      | some a, some conf =>
        by_cases h1 : a < autoT
        · by_cases h2 : (85 / 100 : ℚ) ≤ conf
          · by_cases h3 : highT ≤ a
            · exfalso
              simp [create_review_item, lowRiskCheck, highRiskCheck,
                h1, h2, h3] at h
            · exact ⟨a, conf, rfl, rfl, h1, h2, not_le.mp h3⟩
          · exfalso
            by_cases h3 : highT ≤ a <;>
              simp [create_review_item, lowRiskCheck, highRiskCheck,
                h1, h2, h3] at h
        · exfalso
          by_cases h3 : highT ≤ a <;>
            simp [create_review_item, lowRiskCheck, highRiskCheck,
              h1, h3] at h
      | some a, none =>
        exfalso
        by_cases h3 : highT ≤ a <;>
          simp [create_review_item, lowRiskCheck, highRiskCheck, h3] at h
      | none, some conf =>
        exfalso
        simp [create_review_item, lowRiskCheck, highRiskCheck] at h
      | none, none =>
        exfalso
        simp [create_review_item, lowRiskCheck, highRiskCheck] at h
    · rintro ⟨a, conf, rfl, rfl, h1, h2, h3⟩
      simp [create_review_item, lowRiskCheck, highRiskCheck, h1, h2,
        not_le.mpr h3]
  · by_cases hh : highRiskCheck highT d = true
    · right
      simp [create_review_item, hh]
    · by_cases hl : lowRiskCheck autoT d c = true
      · left
        simp [create_review_item, hh, hl]
      · right
        simp [create_review_item, hh, hl]
  · norm_num [create_review_item, lowRiskCheck, highRiskCheck]
  · norm_num [create_review_item, lowRiskCheck, highRiskCheck]

/-- C6: `review_item` with an unknown id fails not-found; with a known id
but an action outside `{approve, reject, escalate}` it fails as a
validation error, leaving the store — hence the item's status,
`reviewed_by`, `reviewed_at` and notes — exactly as before; a valid action
rewrites the item to the corresponding terminal status with `reviewed_by`,
`reviewed_at` and the optional notes stamped. -/
theorem C6_review_item (store : List (ℕ × ReviewItemRec)) (item_id : ℕ)
    (action reviewed_by : String) (notes : Option String) (now : ℕ) :
    (store.find? (fun kv => kv.1 = item_id) = none →
      review_item store item_id action reviewed_by notes now =
        (store, Except.error (ReviewError.notFound item_id))) ∧
    (∀ k item, store.find? (fun kv => kv.1 = item_id) = some (k, item) →
      action ≠ "approve" → action ≠ "reject" → action ≠ "escalate" →
      review_item store item_id action reviewed_by notes now =
        (store, Except.error (ReviewError.invalidAction action))) ∧
    (∀ k item, store.find? (fun kv => kv.1 = item_id) = some (k, item) →
      ∀ st, ((action = "approve" ∧ st = ReviewStatus.approved) ∨
             (action = "reject" ∧ st = ReviewStatus.rejected) ∨
             (action = "escalate" ∧ st = ReviewStatus.escalated)) →
      review_item store item_id action reviewed_by notes now =
        (store.map (fun kv => if kv.1 = item_id then
            (kv.1, ⟨st, some reviewed_by, some now, notes⟩) else kv),
         Except.ok ⟨st, some reviewed_by, some now, notes⟩)) := by
  refine ⟨?_, ?_, ?_⟩
  · intro h
    simp [review_item, h]
  · intro k item h h1 h2 h3
    simp [review_item, h, h1, h2, h3]
  · intro k item h st hst
    rcases hst with ⟨rfl, rfl⟩ | ⟨rfl, rfl⟩ | ⟨rfl, rfl⟩ <;>
      simp [review_item, h]

/-- Witness for `C6_review_item` on a one-item store: a bogus action is a
validation error that returns the store unchanged. -/
theorem C6_witness :
    ([(1, ⟨ReviewStatus.pending_review, none, none, none⟩)] :
        List (ℕ × ReviewItemRec)).find? (fun kv => kv.1 = 1) =
      some (1, ⟨ReviewStatus.pending_review, none, none, none⟩) ∧
    review_item [(1, ⟨ReviewStatus.pending_review, none, none, none⟩)] 1
        "bogus" "alice" none 0 =
      ([(1, ⟨ReviewStatus.pending_review, none, none, none⟩)],
       Except.error (ReviewError.invalidAction "bogus")) := by
  refine ⟨by decide, ?_⟩
  exact (C6_review_item [(1, ⟨ReviewStatus.pending_review, none, none, none⟩)]
    1 "bogus" "alice" none 0).2.1 1
    ⟨ReviewStatus.pending_review, none, none, none⟩ (by decide)
    (by decide) (by decide) (by decide)

/-! ## Description matching and greedy line-item pairing
(`backend/app/matching_engine/matchers.py`) -/

/-- Python `str.split()` on a character list: split on whitespace runs and
drop empty pieces; `acc` holds the current word reversed. -/
def wordsAux : List Char → List Char → List (List Char)
  | [], acc => if acc.isEmpty then [] else [acc.reverse]
  | c :: rest, acc =>
    if c.isWhitespace then
      if acc.isEmpty then wordsAux rest [] else acc.reverse :: wordsAux rest []
    else wordsAux rest (c :: acc)

/-- Python `s.split()` as a list of words. -/
def pyWords (s : String) : List String := (wordsAux s.data []).map String.mk

/-- The word-token set `set(desc.lower().split())` of `match_description`,
as a duplicate-free list. -/
def tokenSet (s : String) : List String := (pyWords (strLower s)).dedup

/-- Embedding of `match_description(desc_a, desc_b)`: Jaccard similarity
of the lowercase word-token sets; matched iff the similarity is ≥ 0.5; the
confidence is the similarity rounded to 3 decimals in both branches. -/
def match_description (desc_a desc_b : Option String) : Bool × ℚ :=
  match desc_a, desc_b with
  | some a, some b =>
    if a = "" ∨ b = "" then (false, 0)
    else
      let words_a := tokenSet a
      let words_b := tokenSet b
      if words_a.isEmpty ∨ words_b.isEmpty then (false, 0)
      else
        let interLen := (words_a.filter (fun w => decide (w ∈ words_b))).length
        let unionLen :=
          words_a.length + (words_b.filter (fun w => decide (w ∉ words_a))).length
        let jaccard := (interLen : ℚ) / (unionLen : ℚ)
        (decide ((1 : ℚ) / 2 ≤ jaccard), roundTo 3 jaccard)
  | _, _ => (false, 0)

/-- One line item as read by `match_line_items`
(`item.get("description"/"quantity"/"unit_price")`). -/
structure LineItemData where
  description : Option String
  quantity : Option ℚ
  unit_price : Option ℚ
deriving DecidableEq

/-- The notes attached to a `LineItemMatch`.  The source interpolates the
offending values into f-strings; the embedding keeps the values
structured instead of formatting them. -/
inductive NoteMsg
  | quantityMismatch (po_qty inv_qty : Option ℚ)
  | priceMismatch (po_price inv_price : Option ℚ)
  | noMatchingInvoiceItem (po_idx : ℕ)
deriving DecidableEq

/-- `LineItemMatch` from the source dataclass. -/
structure LineItemMatch where
  po_index : Option ℕ
  invoice_index : Option ℕ
  description_match : ℚ
  quantity_match : ℚ
  unit_price_match : ℚ
  overall : ℚ
  notes : List NoteMsg
deriving DecidableEq

/-- The `MATCH_TOLERANCES` configuration table. -/
structure Tolerances where
  quantity_pct : ℚ
  quantity_abs : ℚ
  unit_price_pct : ℚ
  unit_price_abs : ℚ
  total_amount_pct : ℚ
  total_amount_abs : ℚ
deriving DecidableEq

/-- The default tolerance table (5%/1 unit quantity, 3%/$0.01 unit price,
5%/$100 total). -/
def MATCH_TOLERANCES : Tolerances :=
  ⟨1 / 20, 1, 3 / 100, 1 / 100, 1 / 20, 100⟩

/-- The inner loop of `match_line_items`: scan the invoice items in order
(`inv_idx` is the position of the head of the remaining list), skip
already-consumed indices, and replace the running best only on a strictly
greater description score (initial best: `(None, 0.0)`). -/
def bestCandidateAux (desc : Option String) (used : List ℕ) :
    List LineItemData → ℕ → Option ℕ × ℚ → Option ℕ × ℚ
  | [], _, best => best
  | item :: rest, inv_idx, best =>
    if inv_idx ∈ used then bestCandidateAux desc used rest (inv_idx + 1) best
    else
      let score := (match_description desc item.description).2
      if best.2 < score then
        bestCandidateAux desc used rest (inv_idx + 1) (some inv_idx, score)
      else bestCandidateAux desc used rest (inv_idx + 1) best

/-- The best unassigned invoice candidate for one PO item. -/
def bestCandidate (desc : Option String) (invoice_items : List LineItemData)
    (used : List ℕ) : Option ℕ × ℚ :=
  bestCandidateAux desc used invoice_items 0 (none, 0)

/-- The `LineItemMatch` produced when no acceptable pairing exists
(`invoice_index = None`, explanatory note). -/
def noMatchItem (po_idx : ℕ) (best_desc_score : ℚ) : LineItemMatch :=
  { po_index := some po_idx
    invoice_index := none
    description_match := best_desc_score
    quantity_match := 0
    unit_price_match := 0
    overall := 0
    notes := [NoteMsg.noMatchingInvoiceItem po_idx] }

/-- The outer loop of `match_line_items`: for each PO item in order, take
the best unassigned candidate; accept it only when its description score
is ≥ 0.3, in which case the invoice index joins `used_invoice_indices`;
the overall score is `0.3·description + 0.4·quantity + 0.3·price`,
rounded to 3 decimals. -/
def matchLineItemsAux (tol : Tolerances) (invoice_items : List LineItemData) :
    List LineItemData → ℕ → List ℕ → List LineItemMatch
  | [], _, _ => []
  | po_item :: rest, po_idx, used =>
    match bestCandidate po_item.description invoice_items used with
    | (some best_inv_idx, best_desc_score) =>
      if 3 / 10 ≤ best_desc_score then
        let inv_item := invoice_items.getD best_inv_idx ⟨none, none, none⟩
        let qty_score := (match_numeric po_item.quantity inv_item.quantity
          tol.quantity_pct tol.quantity_abs).2
        let price_score := (match_numeric po_item.unit_price inv_item.unit_price
          tol.unit_price_pct tol.unit_price_abs).2
        let overall := best_desc_score * (3 / 10) + qty_score * (2 / 5) +
          price_score * (3 / 10)
        { po_index := some po_idx
          invoice_index := some best_inv_idx
          description_match := best_desc_score
          quantity_match := qty_score
          unit_price_match := price_score
          overall := roundTo 3 overall
          notes :=
            (if qty_score = 0 then
              [NoteMsg.quantityMismatch po_item.quantity inv_item.quantity]
             else []) ++
            (if price_score = 0 then
              [NoteMsg.priceMismatch po_item.unit_price inv_item.unit_price]
             else []) } ::
        matchLineItemsAux tol invoice_items rest (po_idx + 1)
          (best_inv_idx :: used)
      else noMatchItem po_idx best_desc_score ::
        matchLineItemsAux tol invoice_items rest (po_idx + 1) used
    | (none, best_desc_score) =>
      noMatchItem po_idx best_desc_score ::
        matchLineItemsAux tol invoice_items rest (po_idx + 1) used

/-- Embedding of `match_line_items(po_items, invoice_items, tolerances)`. -/
def match_line_items (po_items invoice_items : List LineItemData)
    (tol : Tolerances) : List LineItemMatch :=
  matchLineItemsAux tol invoice_items po_items 0 []

/-- The description score a PO description gets against the invoice item
at position `k`. -/
def descScoreAt (desc : Option String) (items : List LineItemData) (k : ℕ) : ℚ :=
  (match_description desc ((items.getD k ⟨none, none, none⟩).description)).2

theorem descScoreAt_cons_zero (desc : Option String) (a : LineItemData)
    (rest : List LineItemData) :
    descScoreAt desc (a :: rest) 0 = (match_description desc a.description).2 :=
  rfl

theorem descScoreAt_cons_succ (desc : Option String) (a : LineItemData)
    (rest : List LineItemData) (k : ℕ) :
    descScoreAt desc (a :: rest) (k + 1) = descScoreAt desc rest k := rfl

/-- Full characterisation of the inner greedy scan: the running best never
decreases; the result is either the initial accumulator or an unassigned
position holding its own score, strictly above the initial score; the
result dominates every unassigned score; and every unassigned position
strictly before a freshly selected index scores strictly below the
result. -/
theorem bestCandidateAux_spec (desc : Option String) (used : List ℕ) :
    ∀ (l : List LineItemData) (idx0 : ℕ) (acc : Option ℕ × ℚ),
    acc.2 ≤ (bestCandidateAux desc used l idx0 acc).2 ∧
    (bestCandidateAux desc used l idx0 acc = acc ∨
      ∃ k, k < l.length ∧ idx0 + k ∉ used ∧
        bestCandidateAux desc used l idx0 acc =
          (some (idx0 + k), descScoreAt desc l k) ∧
        acc.2 < (bestCandidateAux desc used l idx0 acc).2) ∧
    (∀ k, k < l.length → idx0 + k ∉ used →
      descScoreAt desc l k ≤ (bestCandidateAux desc used l idx0 acc).2) ∧
    (∀ i, (bestCandidateAux desc used l idx0 acc).1 = some i →
      acc.2 < (bestCandidateAux desc used l idx0 acc).2 →
      ∀ k, k < l.length → idx0 + k ∉ used → idx0 + k < i →
        descScoreAt desc l k < (bestCandidateAux desc used l idx0 acc).2) := by
  intro l
  induction l with
  | nil =>
    intro idx0 acc
    refine ⟨le_refl _, Or.inl rfl, ?_, ?_⟩
    · intro k hk
      exact absurd hk (by simp)
    · intro i _ _ k hk
      exact absurd hk (by simp)
  | cons a rest ih =>
    intro idx0 acc
    by_cases hu : idx0 ∈ used
    · have hR : bestCandidateAux desc used (a :: rest) idx0 acc =
          bestCandidateAux desc used rest (idx0 + 1) acc := by
        simp [bestCandidateAux, hu]
      obtain ⟨ih1, ih2, ih3, ih4⟩ := ih (idx0 + 1) acc
      rw [hR]
      refine ⟨ih1, ?_, ?_, ?_⟩
      · rcases ih2 with h | ⟨k, hk, hknu, hEq, hlt⟩
        · exact Or.inl h
        · refine Or.inr ⟨k + 1, by simpa using hk, ?_, ?_, hlt⟩
          · have he : idx0 + (k + 1) = idx0 + 1 + k := by omega
            rw [he]
            exact hknu
          · rw [descScoreAt_cons_succ]
            have he : idx0 + (k + 1) = idx0 + 1 + k := by omega
            rw [he]
            exact hEq
      · intro k hk hknu
        match k with
        | 0 => exact absurd hu (by simpa using hknu)
        | k + 1 =>
          rw [descScoreAt_cons_succ]
          apply ih3 k (by simpa using hk)
          have he : idx0 + 1 + k = idx0 + (k + 1) := by omega
          rw [he]
          exact hknu
      · intro i hi hlt k hk hknu hki
        match k with
        | 0 => exact absurd hu (by simpa using hknu)
        | k + 1 =>
          rw [descScoreAt_cons_succ]
          apply ih4 i hi hlt k (by simpa using hk)
          · have he : idx0 + 1 + k = idx0 + (k + 1) := by omega
            rw [he]
            exact hknu
          · omega
    · by_cases hs : acc.2 < (match_description desc a.description).2
      · have hR : bestCandidateAux desc used (a :: rest) idx0 acc =
            bestCandidateAux desc used rest (idx0 + 1)
              (some idx0, (match_description desc a.description).2) := by
          simp [bestCandidateAux, hu, hs]
        obtain ⟨ih1, ih2, ih3, ih4⟩ :=
          ih (idx0 + 1) (some idx0, (match_description desc a.description).2)
        rw [hR]
        refine ⟨le_of_lt (lt_of_lt_of_le hs ih1), ?_, ?_, ?_⟩
        · rcases ih2 with h | ⟨k, hk, hknu, hEq, hlt⟩
          · refine Or.inr ⟨0, by simp, by simpa using hu, ?_, ?_⟩
            · rw [h, descScoreAt_cons_zero]
              simp
            · rw [h]
              exact hs
          · refine Or.inr ⟨k + 1, by simpa using hk, ?_, ?_, lt_trans hs hlt⟩
            · have he : idx0 + (k + 1) = idx0 + 1 + k := by omega
              rw [he]
              exact hknu
            · rw [descScoreAt_cons_succ]
              have he : idx0 + (k + 1) = idx0 + 1 + k := by omega
              rw [he]
              exact hEq
        · intro k hk hknu
          match k with
          | 0 =>
            rw [descScoreAt_cons_zero]
            exact ih1
          | k + 1 =>
            rw [descScoreAt_cons_succ]
            apply ih3 k (by simpa using hk)
            have he : idx0 + 1 + k = idx0 + (k + 1) := by omega
            rw [he]
            exact hknu
        · intro i hi hlt k hk hknu hki
          rcases ih2 with h | ⟨k', hk', hknu', hEq', hlt'⟩
          · rw [h] at hi
            simp only [Option.some.injEq] at hi
            omega
          · match k with
            | 0 =>
              rw [descScoreAt_cons_zero]
              exact hlt'
            | k + 1 =>
              rw [descScoreAt_cons_succ]
              apply ih4 i hi hlt' k (by simpa using hk)
              · have he : idx0 + 1 + k = idx0 + (k + 1) := by omega
                rw [he]
                exact hknu
              · omega
      · have hR : bestCandidateAux desc used (a :: rest) idx0 acc =
            bestCandidateAux desc used rest (idx0 + 1) acc := by
          simp [bestCandidateAux, hu, hs]
        obtain ⟨ih1, ih2, ih3, ih4⟩ := ih (idx0 + 1) acc
        rw [hR]
        refine ⟨ih1, ?_, ?_, ?_⟩
        · rcases ih2 with h | ⟨k, hk, hknu, hEq, hlt⟩
          · exact Or.inl h
          · refine Or.inr ⟨k + 1, by simpa using hk, ?_, ?_, hlt⟩
            · have he : idx0 + (k + 1) = idx0 + 1 + k := by omega
              rw [he]
              exact hknu
            · rw [descScoreAt_cons_succ]
              have he : idx0 + (k + 1) = idx0 + 1 + k := by omega
              rw [he]
              exact hEq
        · intro k hk hknu
          match k with
          | 0 =>
            rw [descScoreAt_cons_zero]
            exact le_trans (not_lt.mp hs) ih1
          | k + 1 =>
            rw [descScoreAt_cons_succ]
            apply ih3 k (by simpa using hk)
            have he : idx0 + 1 + k = idx0 + (k + 1) := by omega
            rw [he]
            exact hknu
        · intro i hi hlt k hk hknu hki
          match k with
          | 0 =>
            rw [descScoreAt_cons_zero]
            exact lt_of_le_of_lt (not_lt.mp hs) hlt
          | k + 1 =>
            rw [descScoreAt_cons_succ]
            apply ih4 i hi hlt k (by simpa using hk)
            · have he : idx0 + 1 + k = idx0 + (k + 1) := by omega
              rw [he]
              exact hknu
            · omega

/-- What a successful inner scan guarantees: the selected index is an
unassigned in-range position holding its own (positive) score, the score
dominates every unassigned candidate, and among unassigned candidates
attaining the score the selected index is least. -/
theorem bestCandidate_spec (desc : Option String)
    (items : List LineItemData) (used : List ℕ) (i : ℕ) (s : ℚ)
    (h : bestCandidate desc items used = (some i, s)) :
    i < items.length ∧ i ∉ used ∧ descScoreAt desc items i = s ∧ 0 < s ∧
    (∀ j, j < items.length → j ∉ used → descScoreAt desc items j ≤ s) ∧
    (∀ j, j < items.length → j ∉ used →
      descScoreAt desc items j = s → i ≤ j) := by
  obtain ⟨-, h2, h3, h4⟩ := bestCandidateAux_spec desc used items 0 (none, 0)
  rw [bestCandidate] at h
  rw [h] at h2 h3 h4
  rcases h2 with heq | ⟨k, hk, hknu, hEq, hlt⟩
  · exact absurd heq (by simp)
  · simp only [Nat.zero_add] at hknu hEq
    have hik : i = k := by
      have := congrArg Prod.fst hEq
      simpa using this
    have hsk : s = descScoreAt desc items k := by
      have := congrArg Prod.snd hEq
      simpa using this
    subst hik
    refine ⟨hk, hknu, hsk.symm, by simpa using hlt, ?_, ?_⟩
    · intro j hj hju
      have := h3 j hj (by simpa using hju)
      simpa using this
    · intro j hj hju hjs
      by_contra hcon
      push_neg at hcon
      have := h4 i rfl (by simpa using hlt) j hj (by simpa using hju)
        (by simpa using hcon)
      rw [hjs] at this
      exact lt_irrefl s (by simpa using this)

/-- C10: when `bestCandidate` (the selection step of `match_line_items`)
returns a pairing, the selected invoice index is unassigned, attains the
maximal description score among unassigned candidates, and is the
smallest index attaining it — a candidate displaces the running best only
on a strictly greater score.  (`match_line_items` is a pure function of
its two input lists, so the output is deterministic in them by
construction.) -/
theorem C10_best_candidate_tie_break (desc : Option String)
    (items : List LineItemData) (used : List ℕ) (i : ℕ) (s : ℚ)
    (h : bestCandidate desc items used = (some i, s)) :
    i < items.length ∧ i ∉ used ∧ descScoreAt desc items i = s ∧ 0 < s ∧
    (∀ j, j < items.length → j ∉ used → descScoreAt desc items j ≤ s) ∧
    (∀ j, j < items.length → j ∉ used →
      descScoreAt desc items j = s → i ≤ j) :=
  bestCandidate_spec desc items used i s h

/-- Witness for `C10_best_candidate_tie_break`: two invoice items with the
same description score 1.0; index 0 is selected. -/
theorem C10_witness :
    bestCandidate (some "alpha")
      [⟨some "alpha", none, none⟩, ⟨some "alpha", none, none⟩] [] =
      (some 0, 1) ∧
    (∀ j, j < ([⟨some "alpha", none, none⟩, ⟨some "alpha", none, none⟩] :
          List LineItemData).length → j ∉ ([] : List ℕ) →
      descScoreAt (some "alpha")
        [⟨some "alpha", none, none⟩, ⟨some "alpha", none, none⟩] j = 1 →
      0 ≤ j) := by
  have hd : match_description (some "alpha") (some "alpha") = (true, 1) := by
    simp +decide [match_description, tokenSet, pyWords, wordsAux, strLower]
    norm_num [roundTo, round_eq]
  have hb : bestCandidate (some "alpha")
      [⟨some "alpha", none, none⟩, ⟨some "alpha", none, none⟩] [] =
      (some 0, 1) := by
    simp [bestCandidate, bestCandidateAux, hd]
  exact ⟨hb, (C10_best_candidate_tie_break (some "alpha")
    [⟨some "alpha", none, none⟩, ⟨some "alpha", none, none⟩] [] 0 1
    hb).2.2.2.2.2⟩

/-- Invariant of the outer greedy loop: the non-null invoice indices in
the produced matches are pairwise distinct and avoid every
already-consumed index. -/
theorem matchLineItemsAux_nodup (tol : Tolerances)
    (invoice_items : List LineItemData) :
    ∀ (po : List LineItemData) (po_idx : ℕ) (used : List ℕ),
    ((matchLineItemsAux tol invoice_items po po_idx used).filterMap
        LineItemMatch.invoice_index).Nodup ∧
    ∀ j ∈ (matchLineItemsAux tol invoice_items po po_idx used).filterMap
        LineItemMatch.invoice_index, j ∉ used := by
  intro po
  induction po with
  | nil =>
    intro po_idx used
    simp [matchLineItemsAux]
  | cons a rest ih =>
    intro po_idx used
    rcases hbc : bestCandidate a.description invoice_items used with ⟨_ | bi, score⟩
    · obtain ⟨ihN, ihF⟩ := ih (po_idx + 1) used
      constructor
      · simpa [matchLineItemsAux, hbc, noMatchItem] using ihN
      · intro j hj
        apply ihF
        simpa [matchLineItemsAux, hbc, noMatchItem] using hj
    · by_cases hsc : (3 : ℚ) / 10 ≤ score
      · have hfresh : bi ∉ used := (bestCandidate_spec _ _ _ _ _ hbc).2.1
        obtain ⟨ihN, ihF⟩ := ih (po_idx + 1) (bi :: used)
        have hfm : (matchLineItemsAux tol invoice_items (a :: rest) po_idx
              used).filterMap LineItemMatch.invoice_index =
            bi :: (matchLineItemsAux tol invoice_items rest (po_idx + 1)
              (bi :: used)).filterMap LineItemMatch.invoice_index := by
          simp [matchLineItemsAux, hbc, hsc]
        constructor
        · rw [hfm]
          refine List.nodup_cons.mpr ⟨?_, ihN⟩
          intro hmem
          exact absurd (ihF bi hmem) (by simp)
        · rw [hfm]
          intro j hj
          rcases List.mem_cons.mp hj with rfl | hj'
          · exact hfresh
          · intro hju
            exact ihF j hj' (List.mem_cons_of_mem _ hju)
      · obtain ⟨ihN, ihF⟩ := ih (po_idx + 1) used
        constructor
        · simpa [matchLineItemsAux, hbc, hsc, noMatchItem] using ihN
        · intro j hj
          apply ihF
          simpa [matchLineItemsAux, hbc, hsc, noMatchItem] using hj

/-- C4: in any output of `match_line_items`, the non-null invoice (target)
indices are pairwise distinct — the greedy assignment never allocates the
same invoice line item to two PO items. -/
theorem C4_match_line_items_no_double_assignment
    (po_items invoice_items : List LineItemData) (tol : Tolerances) :
    ((match_line_items po_items invoice_items tol).filterMap
        LineItemMatch.invoice_index).Nodup :=
  (matchLineItemsAux_nodup tol invoice_items po_items 0 []).1

/-! ## Three-way match engine (`backend/app/matching_engine/matchers.py`) -/

/-- `MatchStatus` from the source enum. -/
inductive MatchStatus
  | full_match
  | partial_match
  | mismatch
  | incomplete
deriving DecidableEq

/-- Python `str.strip()`. -/
def charStrip (s : String) : String :=
  String.mk
    (((s.data.dropWhile Char.isWhitespace).reverse.dropWhile
      Char.isWhitespace).reverse)

/-- The legal-entity suffix list stripped by `match_party_name`'s
`normalize`. -/
def legalSuffixes : List String :=
  [" llc", " inc", " inc.", " co", " co.", " ltd", " ltd.",
   " corp", " corp.", " corporation", " company",
   " limited", " gmbh", " sa", " s.a."]

/-- `normalize(name)` inside `match_party_name`: lowercase and strip, then
strip each suffix of the list in order (re-stripping after each hit), then
delete `,` and `.`, turn `-` into a space, and collapse whitespace. -/
def normalize_name (name : String) : String :=
  let n := charStrip (strLower name)
  let n := legalSuffixes.foldl (fun acc suf =>
    if suf.data.isSuffixOf acc.data then
      charStrip (String.mk (acc.data.take (acc.data.length - suf.data.length)))
    else acc) n
  let n := String.mk
    (((n.data.filter (fun c => decide (c ≠ ','))).filter
        (fun c => decide (c ≠ '.'))).map
      (fun c => if c = '-' then ' ' else c))
  " ".intercalate (pyWords n)

/-- Embedding of `match_party_name(name_a, name_b)`: missing/blank input
is no match; exact normalized equality scores 1.0; substring containment
either way scores 0.85; else no match. -/
def match_party_name (name_a name_b : Option String) : Bool × ℚ :=
  match name_a, name_b with
  | some na, some nb =>
    if na = "" ∨ nb = "" then (false, 0)
    else
      let norm_a := normalize_name na
      let norm_b := normalize_name nb
      if norm_a = "" ∨ norm_b = "" then (false, 0)
      else if norm_a = norm_b then (true, 1)
      else if decide (norm_a.data <:+: norm_b.data) ||
          decide (norm_b.data <:+: norm_a.data) then (true, 17 / 20)
      else (false, 0)
  | _, _ => (false, 0)

/-- A field value carried in a `FieldMatch` (`str | float | None`). -/
inductive FieldValue
  | fs (v : String)
  | fq (v : ℚ)
deriving DecidableEq

/-- `FieldMatch` from the source dataclass. -/
structure FieldMatch where
  field_name : String
  matched : Bool
  confidence : ℚ
  po_value : Option FieldValue
  bol_value : Option FieldValue
  invoice_value : Option FieldValue
deriving DecidableEq

/-- Notes emitted by `compute_three_way_match`; the BOL weight note keeps
its interpolated values structured instead of formatted. -/
inductive TWNote
  | needTwoDocs
  | bolGrossWeight (weight : ℚ) (unit : String)
deriving DecidableEq

/-- `MatchResult` from the source dataclass. -/
structure MatchResult where
  status : MatchStatus
  overall_confidence : ℚ
  field_matches : List FieldMatch
  line_item_matches : List LineItemMatch
  missing_documents : List String
  notes : List TWNote
deriving DecidableEq

/-- An extraction dict as read by `compute_three_way_match`.  `supplier`
and `seller` hold the result of `_get_party_name` (the `name` of a party
dict, or the plain string, else `None`).  A present document is modelled
as a non-empty dict, so the source's truthiness tests (`if po_data and
invoice_data`) coincide with presence. -/
structure DocData where
  supplier : Option String
  seller : Option String
  total_amount : Option ℚ
  line_items : List LineItemData
  gross_weight : Option ℚ
  total_gross_weight : Option ℚ
  weight_unit : Option String
deriving DecidableEq

/-- The missing-document list built at the top of
`compute_three_way_match`. -/
def missingDocs (po_data bol_data invoice_data : Option DocData) :
    List String :=
  (if po_data = none then ["purchase_order"] else []) ++
  (if bol_data = none then ["bill_of_lading_or_packing_list"] else []) ++
  (if invoice_data = none then ["commercial_invoice"] else [])

/-- Party-name and total-amount field comparisons (both only when PO and
invoice are present). -/
def fieldMatchesOf (po_data invoice_data : Option DocData)
    (tol : Tolerances) : List FieldMatch :=
  match po_data, invoice_data with
  | some po, some inv =>
    let pm := match_party_name po.supplier inv.seller
    let am := match_numeric po.total_amount inv.total_amount
      tol.total_amount_pct tol.total_amount_abs
    [{ field_name := "party_name"
       matched := pm.1
       confidence := pm.2
       po_value := po.supplier.map FieldValue.fs
       bol_value := none
       invoice_value := inv.seller.map FieldValue.fs },
     { field_name := "total_amount"
       matched := am.1
       confidence := am.2
       po_value := po.total_amount.map FieldValue.fq
       bol_value := none
       invoice_value := inv.total_amount.map FieldValue.fq }]
  | _, _ => []

/-- Line-item comparison (only when PO and invoice are present and both
carry line items). -/
def lineItemMatchesOf (po_data invoice_data : Option DocData)
    (tol : Tolerances) : List LineItemMatch :=
  match po_data, invoice_data with
  | some po, some inv =>
    if po.line_items ≠ [] ∧ inv.line_items ≠ [] then
      match_line_items po.line_items inv.line_items tol
    else []
  | _, _ => []

/-- Python float truthiness of an optional amount (`None` and `0.0` are
falsy). -/
def qTruthy (a : Option ℚ) : Bool :=
  match a with
  | some x => decide (x ≠ 0)
  | none => false

/-- Python `a or b` over optional amounts. -/
def pyOrQ (a b : Option ℚ) : Option ℚ := if qTruthy a then a else b

/-- The informational BOL gross-weight note. -/
def bolNotesOf (bol_data invoice_data : Option DocData) : List TWNote :=
  match bol_data with
  | some bol =>
    let bol_weight := pyOrQ bol.gross_weight bol.total_gross_weight
    if qTruthy bol_weight && invoice_data.isSome then
      [TWNote.bolGrossWeight (bol_weight.getD 0) (bol.weight_unit.getD "")]
    else []
  | none => []

/-- Embedding of `compute_three_way_match(po_data, bol_data, invoice_data,
tolerances)`: immediate `incomplete` when at least two inputs are absent;
otherwise the field, line-item and note computations above followed by
the documented status classification over the mean of the positive match
scores. -/
def compute_three_way_match (po_data bol_data invoice_data : Option DocData)
    (tol : Tolerances) : MatchResult :=
  let missing := missingDocs po_data bol_data invoice_data
  if 2 ≤ missing.length then
    { status := MatchStatus.incomplete
      overall_confidence := 0
      field_matches := []
      line_item_matches := []
      missing_documents := missing
      notes := [TWNote.needTwoDocs] }
  else
    let field_matches := fieldMatchesOf po_data invoice_data tol
    let line_item_matches := lineItemMatchesOf po_data invoice_data tol
    let notes := bolNotesOf bol_data invoice_data
    let all_confidences :=
      (field_matches.filter (fun fm => fm.matched)).map
        (fun fm => fm.confidence)
    let li_confidences :=
      (line_item_matches.filter (fun lm => decide (0 < lm.overall))).map
        (fun lm => lm.overall)
    let all_scores := all_confidences ++ li_confidences
    if missing ≠ [] then
      { status := MatchStatus.incomplete
        overall_confidence :=
          roundTo 3 (all_scores.sum / (max all_scores.length 1 : ℕ))
        field_matches := field_matches
        line_item_matches := line_item_matches
        missing_documents := missing
        notes := notes }
    else if all_scores = [] then
      { status := MatchStatus.mismatch
        overall_confidence := 0
        field_matches := field_matches
        line_item_matches := line_item_matches
        missing_documents := missing
        notes := notes }
    else
      let overall := all_scores.sum / all_scores.length
      let anyMismatchedFields := field_matches.any (fun fm => ! fm.matched)
      let anyMismatchedLines :=
        line_item_matches.any (fun lm => decide (lm.overall < 1 / 2))
      let status :=
        if !anyMismatchedFields && !anyMismatchedLines &&
            decide ((4 : ℚ) / 5 ≤ overall) then MatchStatus.full_match
        else if (1 : ℚ) / 2 ≤ overall then MatchStatus.partial_match
        else MatchStatus.mismatch
      { status := status
        overall_confidence := roundTo 3 overall
        field_matches := field_matches
        line_item_matches := line_item_matches
        missing_documents := missing
        notes := notes }

/-- C5: with at least two of the three documents absent,
`compute_three_way_match` returns `incomplete` immediately — overall
confidence 0, no field or line-item comparison attempted — listing
exactly the absent documents (two entries when exactly two are absent). -/
theorem C5_compute_three_way_match (po bol inv : Option DocData)
    (tol : Tolerances) (h : 2 ≤ (missingDocs po bol inv).length) :
    compute_three_way_match po bol inv tol =
      { status := MatchStatus.incomplete
        overall_confidence := 0
        field_matches := []
        line_item_matches := []
        missing_documents := missingDocs po bol inv
        notes := [TWNote.needTwoDocs] } ∧
    ("purchase_order" ∈ missingDocs po bol inv ↔ po = none) ∧
    ("bill_of_lading_or_packing_list" ∈ missingDocs po bol inv ↔
      bol = none) ∧
    ("commercial_invoice" ∈ missingDocs po bol inv ↔ inv = none) ∧
    (po = none → bol = none → inv ≠ none →
      (missingDocs po bol inv).length = 2) := by
  refine ⟨by simp [compute_three_way_match, h], ?_, ?_, ?_, ?_⟩
  · rcases po with _ | p <;> rcases bol with _ | b <;> rcases inv with _ | v <;>
      simp +decide [missingDocs]
  · rcases po with _ | p <;> rcases bol with _ | b <;> rcases inv with _ | v <;>
      simp +decide [missingDocs]
  · rcases po with _ | p <;> rcases bol with _ | b <;> rcases inv with _ | v <;>
      simp +decide [missingDocs]
  · intro hpo hbol hinv
    subst hpo
    subst hbol
    rcases inv with _ | v
    · exact absurd rfl hinv
    · simp [missingDocs]

/-- Witness for `C5_compute_three_way_match`: PO and BOL absent, invoice
present. -/
theorem C5_witness :
    2 ≤ (missingDocs none none
        (some ⟨none, some "Seller Co", some 100, [], none, none, none⟩)).length ∧
    compute_three_way_match none none
        (some ⟨none, some "Seller Co", some 100, [], none, none, none⟩)
        MATCH_TOLERANCES =
      { status := MatchStatus.incomplete
        overall_confidence := 0
        field_matches := []
        line_item_matches := []
        missing_documents := missingDocs none none
          (some ⟨none, some "Seller Co", some 100, [], none, none, none⟩)
        notes := [TWNote.needTwoDocs] } := by
  have h : 2 ≤ (missingDocs none none
      (some ⟨none, some "Seller Co", some 100, [], none, none, none⟩)).length := by
    simp [missingDocs]
  exact ⟨h, (C5_compute_three_way_match none none
    (some ⟨none, some "Seller Co", some 100, [], none, none, none⟩)
    MATCH_TOLERANCES h).1⟩

/-! ## Reconciliation engine
(`backend/app/reconciliation_engine/matchers.py` and `service.py`) -/

/-- Embedding of `match_by_amount(amount_a, amount_b, tolerance_pct)`. -/
def match_by_amount (amount_a amount_b : Option ℚ) (tolerance_pct : ℚ) :
    Bool × ℚ :=
  match amount_a, amount_b with
  | some a, some b =>
    if a = 0 ∧ b = 0 then (true, 1)
    else if a = 0 ∨ b = 0 then (false, 0)
    else
      let diff_pct := |a - b| / max |a| |b|
      if diff_pct ≤ tolerance_pct then
        (true, roundTo 3 (1 - diff_pct / tolerance_pct * (1 / 5)))
      else (false, 0)
  | _, _ => (false, 0)

/-- Embedding of `match_by_date(date_a, date_b, tolerance_days)`.  ISO
date strings are abstracted to their parsed calendar-day numbers; a
missing date or a parse failure is `none` (the source returns
`(False, 0.0)` for both). -/
def match_by_date (date_a date_b : Option ℤ) (tolerance_days : ℤ) :
    Bool × ℚ :=
  match date_a, date_b with
  | some da, some db =>
    let diff_days := |da - db|
    if diff_days ≤ tolerance_days then
      (true, roundTo 3 (1 - (diff_days : ℚ) / (tolerance_days : ℚ) * (3 / 10)))
    else (false, 0)
  | _, _ => (false, 0)

/-- Embedding of `compute_composite_confidence(ref, amount, date)`:
`0.5·ref + 0.3·amount + 0.2·date`, rounded to 3 decimals. -/
def compute_composite_confidence (ref_match amount_match date_match : ℚ) : ℚ :=
  roundTo 3 (ref_match * (1 / 2) + amount_match * (3 / 10) +
    date_match * (1 / 5))

/-- `ReconciliationStatus` from `backend/app/models/reconciliation.py`. -/
inductive ReconStatus
  | pending
  | matched
  | partial_match
  | mismatch
  | resolved
deriving DecidableEq

/-- The `match_reasoning` strings of `run_reconciliation`, with their
interpolated amounts kept structured. -/
inductive ReconReason
  | refAndAmountMatch (tms_amount erp_amount : ℚ)
  | refMatchAmountsDiffer
  | noMatchingERP
  | noMatchingTMS
deriving DecidableEq

/-- One loaded `mock_logistics_data` row as `run_reconciliation` reads it:
the reference number, `record_data["amount"]` and the record's date
(`ship_date` for TMS, `posting_date` for ERP; the empty-string default of
the source is `none` here). -/
structure ReconInput where
  reference_number : Option String
  amount : Option ℚ
  date : Option ℤ
deriving DecidableEq

/-- The match fields `run_reconciliation` writes onto a
`ReconciliationRecord`.  `matched_with` holds the counterpart's position
in the other system's load order (standing for `matched_with_id`);
`mismatch_details` is `(tms_amount, erp_amount, |difference|)`. -/
structure ReconOut where
  match_status : ReconStatus
  matched_with : Option ℕ
  match_confidence : Option ℚ
  match_reasoning : Option ReconReason
  mismatch_details : Option (ℚ × ℚ × ℚ)
deriving DecidableEq

/-- A freshly created reconciliation record
(`match_status=ReconciliationStatus.PENDING`). -/
def pendingOut : ReconOut :=
  ⟨ReconStatus.pending, none, none, none, none⟩

/-- `(reference_number or "").strip().lower()`. -/
def pyNormRef (ref : Option String) : String :=
  strLower (charStrip (ref.getD ""))

/-- Scan for the first record (from position `i0`) whose normalized
reference equals `target`. -/
def findNormIdxAux (target : String) : List ReconInput → ℕ → Option ℕ
  | [], _ => none
  | e :: rest, i =>
    if pyNormRef e.reference_number = target then some i
    else findNormIdxAux target rest (i + 1)

/-- The ERP record a TMS record is paired with: the source builds
`erp_by_ref` (a dict of lists in ERP load order keyed by normalized
reference) and takes `matching_erp[0]`, i.e. the first ERP record in load
order whose normalized reference equals the TMS record's. -/
def findNormIdx (erp : List ReconInput) (t : ReconInput) : Option ℕ :=
  findNormIdxAux (pyNormRef t.reference_number) erp 0

/-- One iteration of the phase-1 TMS loop: the TMS record's own output,
the write performed on the paired ERP record (position and new value), and
whether the pair counted as matched.  `k` is the TMS record's position
(standing for `tms_rec.id` in the back-reference). -/
def reconTmsResult (erp : List ReconInput) (k : ℕ) (t : ReconInput) :
    ReconOut × Option (ℕ × ReconOut) × Bool :=
  match findNormIdx erp t with
  | some j =>
    let e := erp.getD j ⟨none, none, none⟩
    let tms_amount := t.amount.getD 0
    let erp_amount := e.amount.getD 0
    let am := match_by_amount (some tms_amount) (some erp_amount) (2 / 100)
    let dm := match_by_date t.date e.date 3
    let composite := compute_composite_confidence 1 am.2 dm.2
    if am.1 then
      (⟨ReconStatus.matched, some j, some composite,
         some (ReconReason.refAndAmountMatch tms_amount erp_amount), none⟩,
       some (j, ⟨ReconStatus.matched, some k, some composite,
         some (ReconReason.refAndAmountMatch tms_amount erp_amount), none⟩),
       true)
    else
      let details := (tms_amount, erp_amount, roundTo 2 |tms_amount - erp_amount|)
      (⟨ReconStatus.mismatch, some j, some composite,
         some ReconReason.refMatchAmountsDiffer, some details⟩,
       some (j, ⟨ReconStatus.mismatch, some k, some composite,
         some ReconReason.refMatchAmountsDiffer, some details⟩),
       false)
  | none =>
    (⟨ReconStatus.mismatch, none, none, some ReconReason.noMatchingERP, none⟩,
     none, false)

/-- The running state of the phase-1 loop. -/
structure ReconFoldState where
  tmsOuts : List ReconOut
  erpOuts : List ReconOut
  matched_count : ℕ
  mismatch_count : ℕ
deriving DecidableEq

/-- Apply the ERP-side write of one TMS iteration. -/
def applyWrite (erpOuts : List ReconOut) : Option (ℕ × ReconOut) → List ReconOut
  | some (j, v) => erpOuts.set j v
  | none => erpOuts

/-- One step of the phase-1 fold. -/
def reconStep (erp : List ReconInput) (st : ReconFoldState)
    (p : ℕ × ReconInput) : ReconFoldState :=
  let r := reconTmsResult erp p.1 p.2
  { tmsOuts := st.tmsOuts ++ [r.1]
    erpOuts := applyWrite st.erpOuts r.2.1
    matched_count := st.matched_count + (if r.2.2 then 1 else 0)
    mismatch_count := st.mismatch_count + (if r.2.2 then 0 else 1) }

/-- Phase 1 of `run_reconciliation` plus the unmatched-ERP post-pass: walk
the TMS records in load order pairing each with the first same-reference
ERP record, then mark every still-pending ERP record `mismatch` with
reasoning "No matching TMS record found". -/
def runReconciliationPhase1 (tms erp : List ReconInput) : ReconFoldState :=
  let afterTms := tms.enum.foldl (reconStep erp)
    ⟨[], erp.map (fun _ => pendingOut), 0, 0⟩
  { afterTms with
    erpOuts := afterTms.erpOuts.map (fun o =>
      if o.match_status = ReconStatus.pending then
        { o with match_status := ReconStatus.mismatch
                 match_reasoning := some ReconReason.noMatchingTMS }
      else o)
    mismatch_count := afterTms.mismatch_count +
      (afterTms.erpOuts.filter
        (fun o => decide (o.match_status = ReconStatus.pending))).length }

/-- `getD` after writing a different position is unchanged. -/
theorem getD_set_ne {α : Type} (l : List α) {i j : ℕ} (hij : i ≠ j)
    (v d : α) : (l.set i v).getD j d = l.getD j d := by
  rw [List.getD_eq_getElem?_getD, List.getD_eq_getElem?_getD,
    List.getElem?_set_ne hij]

/-- What a successful normalized-reference scan guarantees: the hit is in
range (offset by the start position), carries the target reference, and
every earlier position does not. -/
theorem findNormIdxAux_spec (target : String) :
    ∀ (l : List ReconInput) (i0 j : ℕ),
    findNormIdxAux target l i0 = some j →
    ∃ k, k < l.length ∧ j = i0 + k ∧
      pyNormRef ((l.getD k ⟨none, none, none⟩).reference_number) = target ∧
      ∀ m, m < k →
        pyNormRef ((l.getD m ⟨none, none, none⟩).reference_number) ≠ target := by
  intro l
  induction l with
  | nil =>
    intro i0 j h
    simp [findNormIdxAux] at h
  | cons e rest ih =>
    intro i0 j h
    by_cases he : pyNormRef e.reference_number = target
    · simp only [findNormIdxAux, if_pos he, Option.some.injEq] at h
      refine ⟨0, by simp, by omega, by simpa using he, ?_⟩
      intro m hm
      omega
    · simp only [findNormIdxAux, if_neg he] at h
      obtain ⟨k, hk, hj, hpk, hall⟩ := ih (i0 + 1) j h
      refine ⟨k + 1, by simpa using hk, by omega, by simpa using hpk, ?_⟩
      intro m hm
      match m with
      | 0 => simpa using he
      | m + 1 =>
        rw [List.getD_cons_succ]
        exact hall m (by omega)

/-- An ERP record with an earlier same-reference sibling is never the
record `erp_by_ref[...][0]` returns. -/
theorem findNormIdx_ne_of_dup (erp : List ReconInput) (t : ReconInput)
    (i j : ℕ) (hij : i < j)
    (hsame : pyNormRef ((erp.getD i ⟨none, none, none⟩).reference_number) =
      pyNormRef ((erp.getD j ⟨none, none, none⟩).reference_number)) :
    findNormIdx erp t ≠ some j := by
  intro h
  obtain ⟨k, hk, hjk, hpk, hall⟩ :=
    findNormIdxAux_spec (pyNormRef t.reference_number) erp 0 j h
  have hkj : k = j := by omega
  subst hkj
  exact hall i hij (hsame.trans hpk)

/-- The phase-1 fold does not change the number of ERP records. -/
theorem reconFold_erpOuts_length (erp : List ReconInput) :
    ∀ (l : List (ℕ × ReconInput)) (st : ReconFoldState),
    (l.foldl (reconStep erp) st).erpOuts.length = st.erpOuts.length := by
  intro l
  induction l with
  | nil =>
    intro st
    rfl
  | cons p rest ih =>
    intro st
    rw [List.foldl_cons, ih]
    rcases h : (reconTmsResult erp p.1 p.2).2.1 with _ | ⟨j, v⟩ <;>
      simp [reconStep, applyWrite, h]

/-- An ERP position that no TMS lookup can select keeps its entry across
the whole phase-1 fold. -/
theorem reconFold_preserves_unselected (erp : List ReconInput) (j : ℕ)
    (hnf : ∀ t, findNormIdx erp t ≠ some j) :
    ∀ (l : List (ℕ × ReconInput)) (st : ReconFoldState),
    (l.foldl (reconStep erp) st).erpOuts.getD j pendingOut =
      st.erpOuts.getD j pendingOut := by
  intro l
  induction l with
  | nil =>
    intro st
    rfl
  | cons p rest ih =>
    intro st
    rw [List.foldl_cons, ih]
    rcases hf : findNormIdx erp p.2 with _ | j'
    · simp [reconStep, reconTmsResult, hf, applyWrite]
    · have hji : j' ≠ j := fun he => hnf p.2 (he ▸ hf)
      rcases ham : (match_by_amount (some (p.2.amount.getD 0))
          (some ((erp.getD j' ⟨none, none, none⟩).amount.getD 0))
          (2 / 100)).1 with _ | _
      · simp only [reconStep, reconTmsResult, hf, ham, Bool.false_eq_true,
          if_false, applyWrite]
        exact getD_set_ne _ hji _ _
      · simp only [reconStep, reconTmsResult, hf, ham, if_true, applyWrite]
        exact getD_set_ne _ hji _ _

/-- The TMS outputs of the phase-1 fold: one record per TMS input,
computed independently of the accumulated state. -/
theorem reconFold_tmsOuts (erp : List ReconInput) :
    ∀ (l : List (ℕ × ReconInput)) (st : ReconFoldState),
    (l.foldl (reconStep erp) st).tmsOuts =
      st.tmsOuts ++ l.map (fun p => (reconTmsResult erp p.1 p.2).1) := by
  intro l
  induction l with
  | nil =>
    intro st
    simp
  | cons p rest ih =>
    intro st
    rw [List.foldl_cons, ih]
    simp [reconStep]

/-- C9: when several ERP records share a normalized reference, every TMS
record with that reference is paired with the first such ERP record in
load order (`findNormIdx`, which returns the first index whose normalized
reference matches — third conjunct), and every later ERP record with that
reference is left pending by the main pass and then marked `mismatch`
with reasoning "No matching TMS record found" (first conjunct). -/
theorem C9_run_reconciliation (tms erp : List ReconInput) (j : ℕ)
    (hj : j < erp.length)
    (hdup : ∃ i, i < j ∧
      pyNormRef ((erp.getD i ⟨none, none, none⟩).reference_number) =
      pyNormRef ((erp.getD j ⟨none, none, none⟩).reference_number)) :
    (runReconciliationPhase1 tms erp).erpOuts.getD j pendingOut =
      ⟨ReconStatus.mismatch, none, none,
        some ReconReason.noMatchingTMS, none⟩ ∧
    (∀ k, k < tms.length →
      ((runReconciliationPhase1 tms erp).tmsOuts.getD k pendingOut).matched_with
        = findNormIdx erp (tms.getD k ⟨none, none, none⟩)) ∧
    (∀ t j', findNormIdx erp t = some j' →
      j' < erp.length ∧
      pyNormRef ((erp.getD j' ⟨none, none, none⟩).reference_number) =
        pyNormRef t.reference_number ∧
      ∀ i, i < j' →
        pyNormRef ((erp.getD i ⟨none, none, none⟩).reference_number) ≠
          pyNormRef t.reference_number) := by
  obtain ⟨i, hij, hsame⟩ := hdup
  have hnf : ∀ t, findNormIdx erp t ≠ some j := fun t =>
    findNormIdx_ne_of_dup erp t i j hij hsame
  refine ⟨?_, ?_, ?_⟩
  · have hpend : (tms.enum.foldl (reconStep erp)
        ⟨[], erp.map (fun _ => pendingOut), 0, 0⟩).erpOuts.getD j pendingOut =
        pendingOut := by
      rw [reconFold_preserves_unselected erp j hnf]
      have hjlen : j < (erp.map (fun _ => pendingOut)).length := by
        simpa using hj
      rw [List.getD_eq_getElem _ _ hjlen, List.getElem_map]
    have hlen : (tms.enum.foldl (reconStep erp)
        ⟨[], erp.map (fun _ => pendingOut), 0, 0⟩).erpOuts.length =
        erp.length := by
      rw [reconFold_erpOuts_length]
      simp
    have hjlen : j < (tms.enum.foldl (reconStep erp)
        ⟨[], erp.map (fun _ => pendingOut), 0, 0⟩).erpOuts.length := by
      omega
    show ((tms.enum.foldl (reconStep erp)
        ⟨[], erp.map (fun _ => pendingOut), 0, 0⟩).erpOuts.map _).getD j
        pendingOut = _
    rw [List.getD_eq_getElem _ _ (by simpa using hjlen), List.getElem_map,
      ← List.getD_eq_getElem _ pendingOut hjlen, hpend]
    rfl
  · intro k hk
    have htms : (runReconciliationPhase1 tms erp).tmsOuts =
        tms.enum.map (fun p => (reconTmsResult erp p.1 p.2).1) := by
      show (tms.enum.foldl (reconStep erp)
        ⟨[], erp.map (fun _ => pendingOut), 0, 0⟩).tmsOuts = _
      rw [reconFold_tmsOuts]
      rfl
    have hklen : k < (tms.enum.map
        (fun p => (reconTmsResult erp p.1 p.2).1)).length := by
      simpa [List.enum_length] using hk
    rw [htms, List.getD_eq_getElem _ _ hklen, List.getElem_map,
      List.getElem_enum, List.getD_eq_getElem _ _ hk]
    rcases hf : findNormIdx erp tms[k] with _ | j'
    · simp [reconTmsResult, hf]
    · rcases ham : (match_by_amount (some (tms[k].amount.getD 0))
        (some ((erp[j']?.getD
          (⟨none, none, none⟩ : ReconInput)).amount.getD 0))
        (2 / 100)).1 with _ | _ <;>
        simp [reconTmsResult, hf, ham, List.getD_eq_getElem?_getD]
  · intro t j' hf
    obtain ⟨k, hk, hjk, hpk, hall⟩ :=
      findNormIdxAux_spec (pyNormRef t.reference_number) erp 0 j' hf
    have hkj : k = j' := by omega
    subst hkj
    exact ⟨hk, hpk, hall⟩

/-- Witness for `C9_run_reconciliation`: two ERP records normalising to
"ref-1" ("ref-1" and "REF-1 "); the second (position 1) has an earlier
same-reference sibling. -/
theorem C9_witness :
    (1 < ([⟨some "ref-1", some 100, none⟩, ⟨some "REF-1 ", some 100, none⟩] :
        List ReconInput).length ∧
      pyNormRef ((([⟨some "ref-1", some 100, none⟩,
          ⟨some "REF-1 ", some 100, none⟩] :
          List ReconInput).getD 0 ⟨none, none, none⟩).reference_number) =
        pyNormRef ((([⟨some "ref-1", some 100, none⟩,
          ⟨some "REF-1 ", some 100, none⟩] :
          List ReconInput).getD 1 ⟨none, none, none⟩).reference_number)) ∧
    (runReconciliationPhase1 [⟨some "REF-1", some 100, none⟩]
        [⟨some "ref-1", some 100, none⟩,
         ⟨some "REF-1 ", some 100, none⟩]).erpOuts.getD 1 pendingOut =
      ⟨ReconStatus.mismatch, none, none,
        some ReconReason.noMatchingTMS, none⟩ := by
  refine ⟨⟨by decide, by decide⟩, ?_⟩
  exact (C9_run_reconciliation [⟨some "REF-1", some 100, none⟩]
    [⟨some "ref-1", some 100, none⟩, ⟨some "REF-1 ", some 100, none⟩] 1
    (by decide) ⟨0, by decide, by decide⟩).1

end Gamma
